import Mathlib

/-!
Verification of a small C++ repository consisting of two components:

* a character-driven recursive-descent interpreter for an arithmetic
  mini-language (`Custom Interpreter.cpp`), and
* a register-based bytecode virtual machine (`virtualMachine.cpp`).

The development is a shallow embedding: each C++ member function becomes a
Lean function over an explicit state record.  C++ `int` is modelled as `Int`
(the values appearing in the properties below are tiny, far from any 32-bit
boundary).  Code that throws an exception is modelled with `Except`; code
that runs into C++ undefined behaviour (an unguarded division by zero, an
out-of-bounds raw-array access, a read of uninitialized heap memory) is
modelled by a distinguished error constructor `Err.ub`, since the C++
standard assigns such executions no semantics at all — in particular `Err.ub`
is *not* an exception the programs could catch or report.
-/

/-- Outcome classification shared by both components.

* `raised msg` — a thrown C++ exception carrying message `msg`
  (`std::runtime_error`, `std::invalid_argument`, `std::out_of_range`);
* `ub msg` — C++ undefined behaviour was reached (nothing is thrown there);
* `unmodelled msg` — defined C++ behaviour that this development does not
  model (only the floating-point `std::pow` used by the VM's `EXP` opcode);
* `fuel` — the step budget of the embedding ran out (the C++ code would keep
  running; every theorem below either holds for all budgets or uses a budget
  large enough for the computation at hand). -/
inductive Err where
  | raised : String → Err
  | ub : String → Err
  | unmodelled : String → Err
  | fuel : Err
deriving DecidableEq, Repr

deriving instance DecidableEq for Except

/-- `true` exactly on the undefined-behaviour outcome. -/
def isUB {α : Type} : Except Err α → Bool
  | .error (.ub _) => true
  | _ => false

/-! ### ASCII character classification (C locale `<cctype>`) -/

/-- C `isdigit`. -/
def isDigitC (c : Char) : Bool := 48 ≤ c.toNat ∧ c.toNat ≤ 57

/-- C `isalpha` (C locale: ASCII letters). -/
def isAlphaC (c : Char) : Bool :=
  (65 ≤ c.toNat ∧ c.toNat ≤ 90) ∨ (97 ≤ c.toNat ∧ c.toNat ≤ 122)

/-- C `isalnum`. -/
def isAlnumC (c : Char) : Bool := isDigitC c || isAlphaC c

/-- C `isspace` (C locale: space, \t, \n, \v, \f, \r — codes 32 and 9–13). -/
def isSpaceC (c : Char) : Bool :=
  c.toNat = 32 ∨ (9 ≤ c.toNat ∧ c.toNat ≤ 13)

/-- The character class accepted inside identifiers by
`Interpreter::identifier`: `isalnum(c) || c == '_'`. -/
def isIdentC (c : Char) : Bool := isAlnumC c || c.toNat = 95

/-! ### `std::stoi` -/

/-- Decimal value of a digit string, most significant digit first. -/
def digitsVal (ds : List Char) : Nat :=
  ds.foldl (fun a c => 10 * a + (c.toNat - 48)) 0

/-- `std::stoi`: skip leading whitespace, optional sign, then a nonempty
run of decimal digits; throws `std::invalid_argument` when no digits are
found.  (Overflow of 32-bit `int` is not modelled; all inputs used below
are tiny.) -/
def stoiList (cs : List Char) : Except Err Int :=
  let cs1 := cs.dropWhile isSpaceC
  let core : List Char → Except Err Int := fun l =>
    let ds := l.takeWhile isDigitC
    if ds = [] then .error (.raised "stoi: invalid argument")
    else .ok (digitsVal ds)
  match cs1 with
  | '-' :: rest => (core rest).map (fun v => -v)
  | '+' :: rest => core rest
  | rest => core rest

/-! ## The expression interpreter (`Custom Interpreter.cpp`)

State of the `Interpreter` object.  The C++ field `current_char` is not a
separate field here: every path in the source maintains the invariant
`current_char == (pos < input.length() ? input[pos] : '\0')` (both
`advance()` and the explicit `current_char = input[pos];` assignments, since
`std::string::operator[]` at index `size()` yields `'\0'`), so it is
recovered by the function `cur` below. -/

/-- A declared function: ordered parameter names and the raw body text
captured between the braces. -/
structure Func where
  params : List String
  body : List Char
deriving DecidableEq, Repr

/-- The `Interpreter` object state: input buffer, cursor offset, and the
three symbol tables (`std::map` modelled as association lists; only lookup
and insert-or-assign are ever used, never iteration order).  The C++ field
`variables` is called `vars` here because `variables` is reserved in Lean. -/
structure ISt where
  input : List Char
  pos : Nat
  vars : List (String × Int)
  arrays : List (String × List Int)
  functions : List (String × Func)
deriving DecidableEq, Repr

/-- `std::map` lookup (`count` + `operator[]` under a `count` guard). -/
def lookupA {κ α : Type} [DecidableEq κ] : List (κ × α) → κ → Option α
  | [], _ => none
  | (k, v) :: t, key => if k = key then some v else lookupA t key

/-- `std::map` insert-or-assign (`m[k] = v`). -/
def setAssoc {κ α : Type} [DecidableEq κ] : List (κ × α) → κ → α → List (κ × α)
  | [], key, v => [(key, v)]
  | (k, w) :: t, key, v => if k = key then (key, v) :: t else (k, w) :: setAssoc t key v

/-- The current character: `input[pos]`, or `'\0'` at or past the end. -/
def cur (s : ISt) : Char := s.input.getD s.pos '\x00'

/-- `Interpreter::advance`. -/
def advance (s : ISt) : ISt := { s with pos := s.pos + 1 }

/-!
The three character-scanning `while` loops (`skip_whitespace`, the digit
loop of `integer`, the loop of `identifier`) and the body-capture loop of
the function-declaration branch always terminate because each iteration
requires `current_char != '\0'` — so the cursor is strictly inside the
buffer — and advances it.  They are defined here by structural recursion on
the explicit bound `input.length - pos` (the number of characters left),
which the loop condition can never outrun; this keeps every definition
kernel-computable. -/

/-- The loop of `Interpreter::skip_whitespace`, running at most `n`
iterations. -/
def skipWsF : Nat → ISt → ISt
  | 0, s => s
  | n+1, s => if cur s ≠ '\x00' ∧ isSpaceC (cur s) then skipWsF n (advance s) else s

/-- `Interpreter::skip_whitespace`. -/
def skipWs (s : ISt) : ISt := skipWsF (s.input.length - s.pos) s

/-- The digit-collecting loop of `Interpreter::integer`. -/
def digitsAuxF : Nat → ISt → List Char × ISt
  | 0, s => ([], s)
  | n+1, s =>
    if cur s ≠ '\x00' ∧ isDigitC (cur s) then
      let r := digitsAuxF n (advance s)
      (cur s :: r.1, r.2)
    else ([], s)

/-- `Interpreter::integer`: collect digits, then `std::stoi` the result. -/
def integer (s : ISt) : Except Err Int × ISt :=
  let r := digitsAuxF (s.input.length - s.pos) s
  (stoiList r.1, r.2)

/-- The character-collecting loop of `Interpreter::identifier`. -/
def identAuxF : Nat → ISt → List Char × ISt
  | 0, s => ([], s)
  | n+1, s =>
    if cur s ≠ '\x00' ∧ isIdentC (cur s) then
      let r := identAuxF n (advance s)
      (cur s :: r.1, r.2)
    else ([], s)

/-- The scanning part of `Interpreter::identifier`, with the bound
instantiated. -/
def identAux (s : ISt) : List Char × ISt := identAuxF (s.input.length - s.pos) s

/-- `Interpreter::identifier`. -/
def identifier (s : ISt) : String × ISt :=
  let r := identAux s
  (String.mk r.1, r.2)

/-- A `0`-bound scan only starts when the cursor is at or past the end of
the buffer, where the C++ loops stop immediately as well
(`current_char == '\0'`): the bound is never the reason a scan stops. -/
theorem cur_eq_null_of_le (s : ISt) (h : s.input.length ≤ s.pos) : cur s = '\x00' :=
  List.getD_eq_default _ _ h

/-! ### The mutually recursive grammar productions

`expr`, `term`, `factor` and `Interpreter::call_function` recurse into each
other through the function table (a function body is re-parsed by `expr` on
every call), so the C++ recursion need not terminate; the embedding
therefore threads an explicit step budget (`fuel`).  Each `while` loop of
the source becomes a `...Loop` function.  `call_function` is split into
`callPre` (lookup, `'('`, arguments, `')'`) followed by the
snapshot/bind/swap/evaluate/restore phase, exactly in source order. -/


/-- The parameter binding performed by `call_function`:
`for i: variables[parameters[i]] = args[i]`. -/
def bindParams (m : List (String × Int)) (ps : List String) (args : List Int) :
    List (String × Int) :=
  (ps.zip args).foldl (fun m pa => setAssoc m pa.1 pa.2) m

/-- The state on which a function body is evaluated: parameters bound over
the caller's table, cursor at the start of the body text. -/
def bodyState (func : Func) (args : List Int) (s2 : ISt) : ISt :=
  { s2 with vars := bindParams s2.vars func.params args, input := func.body, pos := 0 }

/-- The restoration performed at the end of `call_function` (both paths):
cursor position, input buffer and variable table come back from the state
saved at call entry (`s2`, the state just past the argument list). -/
def restoreFrom (s2 s5 : ISt) : ISt :=
  { s5 with input := s2.input, pos := s2.pos, vars := s2.vars }

mutual

/-- `Interpreter::factor` (lines 60–94). -/
def factor : Nat → ISt → Except Err Int × ISt
  | 0, s => (.error .fuel, s)
  | fuel+1, s =>
    let s := skipWs s
    if isDigitC (cur s) then integer s
    else if isAlphaC (cur s) then
      let r := identifier s
      let name := r.1
      let s1 := r.2
      if cur s1 = '[' then
        match expr fuel (advance s1) with
        | (.error e, s2) => (.error e, s2)
        | (.ok idx, s2) =>
          if cur s2 ≠ ']' then (.error (.raised "Error: Expected ']' for array access"), s2)
          else
            let s3 := advance s2
            match lookupA s3.arrays name with
            | some arr =>
              if idx < 0 ∨ (arr.length : Int) ≤ idx then
                (.error (.raised "Error: Array index out of bounds"), s3)
              else (.ok (arr.getD idx.toNat 0), s3)
            | none => (.error (.raised ("Error: Undefined array: " ++ name)), s3)
      else
        match lookupA s1.vars name with
        | some v => (.ok v, s1)
        | none =>
          match lookupA s1.functions name with
          | some _ => call_function fuel name s1
          | none => (.error (.raised ("Error: Undefined variable or function: " ++ name)), s1)
    else if cur s = '(' then
      match expr fuel (advance s) with
      | (.error e, s1) => (.error e, s1)
      | (.ok v, s1) =>
        if cur s1 ≠ ')' then (.error (.raised "Error: Expected ')'"), s1)
        else (.ok v, advance s1)
    else (.error (.raised "Error: Invalid factor"), s)

/-- The `while (current_char == '*' || current_char == '/')` loop of
`Interpreter::term`.  `result /= factor()` uses C++ `int` division
(truncation toward zero, `Int.tdiv`); a zero divisor is *not* checked in the
source — it is undefined behaviour, modelled as `Err.ub`. -/
def termLoop : Nat → Int → ISt → Except Err Int × ISt
  | 0, _, s => (.error .fuel, s)
  | fuel+1, acc, s =>
    if cur s = '*' ∨ cur s = '/' then
      let op := cur s
      match factor fuel (advance s) with
      | (.error e, s1) => (.error e, s1)
      | (.ok v, s1) =>
        if op = '*' then termLoop fuel (acc * v) s1
        else if v = 0 then (.error (.ub "division by zero"), s1)
        else termLoop fuel (acc.tdiv v) s1
    else (.ok acc, s)

/-- `Interpreter::term` (lines 96–107). -/
def term : Nat → ISt → Except Err Int × ISt
  | 0, s => (.error .fuel, s)
  | fuel+1, s =>
    match factor fuel s with
    | (.error e, s1) => (.error e, s1)
    | (.ok v, s1) => termLoop fuel v s1

/-- The `while (current_char == '+' || current_char == '-')` loop of
`Interpreter::expr`. -/
def exprLoop : Nat → Int → ISt → Except Err Int × ISt
  | 0, _, s => (.error .fuel, s)
  | fuel+1, acc, s =>
    if cur s = '+' ∨ cur s = '-' then
      let op := cur s
      match term fuel (advance s) with
      | (.error e, s1) => (.error e, s1)
      | (.ok v, s1) =>
        if op = '+' then exprLoop fuel (acc + v) s1
        else exprLoop fuel (acc - v) s1
    else (.ok acc, s)

/-- `Interpreter::expr` (lines 109–120). -/
def expr : Nat → ISt → Except Err Int × ISt
  | 0, s => (.error .fuel, s)
  | fuel+1, s =>
    match term fuel s with
    | (.error e, s1) => (.error e, s1)
    | (.ok v, s1) => exprLoop fuel v s1

/-- The argument loop of `Interpreter::call_function`: one expression per
declared parameter, with `','` expected before every argument but the
first. -/
def argsLoop : Nat → List String → Bool → ISt → Except Err (List Int) × ISt
  | 0, _, _, s => (.error .fuel, s)
  | _+1, [], _, s => (.ok [], s)
  | fuel+1, _p :: ps, first, s =>
    if ¬ first ∧ cur s ≠ ',' then
      (.error (.raised "Error: Expected ',' between function arguments"), s)
    else
      match expr fuel (if first then s else advance s) with
      | (.error e, s2) => (.error e, s2)
      | (.ok v, s2) =>
        match argsLoop fuel ps false s2 with
        | (.error e, s3) => (.error e, s3)
        | (.ok vs, s3) => (.ok (v :: vs), s3)

/-- The entry phase of `Interpreter::call_function` (lines 135–154):
function-table lookup, `'('`, the arguments, `')'`.  Returns the looked-up
function and the argument values, with the cursor just past `')'`. -/
def callPre : Nat → String → ISt → Except Err (Func × List Int) × ISt
  | 0, _, s => (.error .fuel, s)
  | fuel+1, fname, s =>
    match lookupA s.functions fname with
    | none => (.error (.raised ("Error: Undefined function: " ++ fname)), s)
    | some func =>
      let s1 := skipWs s
      if cur s1 ≠ '(' then (.error (.raised "Error: Expected '(' for function call"), s1)
      else
        match argsLoop fuel func.params true (advance s1) with
        | (.error e, s2) => (.error e, s2)
        | (.ok args, s2) =>
          if cur s2 ≠ ')' then
            (.error (.raised "Error: Expected ')' after function arguments"), s2)
          else (.ok (func, args), advance s2)

/-- `Interpreter::call_function` (lines 135–185).  After `callPre`, in
source order: snapshot the variable table, bind each parameter to its
argument, save the cursor (`saved_pos`/`saved_input`), swap the cursor to
the body, evaluate the body as a single `expr`, and on *both* the normal
and the exceptional path restore cursor, buffer and variable table before
returning/propagating (the C++ `try { ... } catch (...) { restore; throw; }`
followed by the same restoration on the normal path). -/
def call_function : Nat → String → ISt → Except Err Int × ISt
  | 0, _, s => (.error .fuel, s)
  | fuel+1, fname, s =>
    match callPre fuel fname s with
    | (.error e, s') => (.error e, s')
    | (.ok (func, args), s2) =>
      match expr fuel (bodyState func args s2) with
      | (.error e, s5) => (.error e, restoreFrom s2 s5)
      | (.ok v, s5) => (.ok v, restoreFrom s2 s5)

end

/-! ### Statements and the top-level program loop -/

/-- The parameter-collecting `while (true)` loop inside the function
declaration branch of `Interpreter::statement` (lines 229–234).  The C++
loop can fail to make progress (when `identifier()` matches nothing), so it
gets a budget too. -/
def paramsLoop : Nat → ISt → Except Err (List String) × ISt
  | 0, s => (.error .fuel, s)
  | fuel+1, s =>
    let r := identifier s
    let p := r.1
    let s1 := r.2
    if cur s1 = ')' then (.ok [p], s1)
    else if cur s1 ≠ ',' then
      (.error (.raised "Error: Expected ',' between parameters"), s1)
    else
      match paramsLoop fuel (advance s1) with
      | (.error e, s2) => (.error e, s2)
      | (.ok ps, s2) => (.ok (p :: ps), s2)

/-- The body-capturing loop of the function declaration branch
(lines 242–245): collect raw characters up to (not including) the first
`'}'` or the end of input. -/
def bodyAuxF : Nat → ISt → List Char × ISt
  | 0, s => ([], s)
  | n+1, s =>
    if cur s ≠ '\x00' ∧ cur s ≠ '}' then
      let r := bodyAuxF n (advance s)
      (cur s :: r.1, r.2)
    else ([], s)

/-- The body-capture loop with its bound instantiated. -/
def bodyAux (s : ISt) : List Char × ISt := bodyAuxF (s.input.length - s.pos) s

/-- `Interpreter::statement` (lines 187–271).  Dispatch order is exactly the
source's: `isalpha(current_char)` is tested *first*, then
`current_char == 'f'` (function declaration) and `current_char == 'a'`
(array declaration) — since `'f'` and `'a'` satisfy `isalpha`, those two
declaration branches are unreachable, and the keyword is read by the first
branch as a plain identifier. -/
def statement : Nat → ISt → Except Err Unit × ISt
  | 0, s => (.error .fuel, s)
  | fuel+1, s =>
    let s := skipWs s
    if cur s = '\x00' then (.ok (), s)
    else if isAlphaC (cur s) then
      let r := identifier s
      let id := r.1
      let s1 := skipWs r.2
      if cur s1 = '=' then
        match expr fuel (advance s1) with
        | (.error e, s2) => (.error e, s2)
        | (.ok v, s2) => (.ok (), { s2 with vars := setAssoc s2.vars id v })
      else if cur s1 = '(' then
        match call_function fuel id s1 with
        | (.error e, s2) => (.error e, s2)
        | (.ok _, s2) => (.ok (), s2)
      else if cur s1 = '[' then
        match expr fuel (advance s1) with
        | (.error e, s2) => (.error e, s2)
        | (.ok idx, s2) =>
          if cur s2 ≠ ']' then
            (.error (.raised "Error: Expected ']' for array assignment"), s2)
          else
            let s3 := skipWs (advance s2)
            if cur s3 ≠ '=' then
              (.error (.raised "Error: Expected '=' for array assignment"), s3)
            else
              match expr fuel (advance s3) with
              | (.error e, s4) => (.error e, s4)
              | (.ok v, s4) =>
                match lookupA s4.arrays id with
                | some arr =>
                  if idx < 0 ∨ (arr.length : Int) ≤ idx then
                    (.error (.raised "Error: Array index out of bounds"), s4)
                  else (.ok (), { s4 with arrays := setAssoc s4.arrays id (arr.set idx.toNat v) })
                | none => (.error (.raised ("Error: Undefined array: " ++ id)), s4)
      else (.error (.raised "Error: Invalid statement"), s1)
    else if cur s = 'f' then
      -- unreachable in practice: 'f' is alphabetic, so the branch above wins
      let r := identifier (advance s)
      let keyword := r.1
      let s1 := r.2
      if keyword = "function" then
        let r2 := identifier s1
        let fname := r2.1
        let s2 := skipWs r2.2
        if cur s2 ≠ '(' then
          (.error (.raised "Error: Expected '(' for function declaration"), s2)
        else
          let s3 := advance s2
          match (if cur s3 = ')' then (.ok [], s3) else paramsLoop fuel s3 :
              Except Err (List String) × ISt) with
          | (.error e, s4) => (.error e, s4)
          | (.ok ps, s4) =>
            let s5 := skipWs (advance s4)
            if cur s5 ≠ '{' then
              (.error (.raised "Error: Expected '\x7b' for function body"), s5)
            else
              let rb := bodyAux (advance s5)
              let body := rb.1
              let s6 := rb.2
              if cur s6 ≠ '}' then
                (.error (.raised "Error: Expected '\x7d' to end function body"), s6)
              else
                (.ok (), { advance s6 with
                            functions := setAssoc s6.functions fname ⟨ps, body⟩ })
      else (.error (.raised ("Error: Unknown keyword: " ++ keyword)), s1)
    else if cur s = 'a' then
      -- likewise unreachable: 'a' is alphabetic
      let r := identifier (advance s)
      let keyword := r.1
      let s1 := r.2
      if keyword = "array" then
        let r2 := identifier s1
        let aname := r2.1
        let s2 := skipWs r2.2
        if cur s2 ≠ '[' then
          (.error (.raised "Error: Expected '[' for array declaration"), s2)
        else
          match expr fuel (advance s2) with
          | (.error e, s3) => (.error e, s3)
          | (.ok sz, s3) =>
            if cur s3 ≠ ']' then
              (.error (.raised "Error: Expected ']' after array size"), s3)
            else if sz < 0 then
              -- std::vector<int>(size) with a negative int is UB territory
              -- (conversion to an astronomically large size_t)
              (.error (.ub "negative array size"), s3)
            else
              (.ok (), { advance s3 with
                          arrays := setAssoc s3.arrays aname (List.replicate sz.toNat 0) })
      else (.error (.raised ("Error: Unknown keyword: " ++ keyword)), s1)
    else (.error (.raised "Error: Unknown statement"), s)

/-- `Interpreter::program` (lines 273–283): statements separated by `';'`
until the end of input. -/
def progLoop : Nat → ISt → Except Err Unit × ISt
  | 0, s => (.error .fuel, s)
  | fuel+1, s =>
    if cur s = '\x00' then (.ok (), s)
    else
      match statement fuel s with
      | (.error e, s1) => (.error e, s1)
      | (.ok _, s1) =>
        let s2 := skipWs s1
        if cur s2 = ';' then progLoop fuel (advance s2)
        else if cur s2 ≠ '\x00' then
          (.error (.raised "Error: Expected ';' after statement"), s2)
        else progLoop fuel s2

/-- Fresh interpreter state on a source text (`Interpreter::interpret`
before `program()` runs: empty symbol tables, cursor at offset 0). -/
def mkISt (text : String) : ISt := ⟨text.toList, 0, [], [], []⟩

/-- `Interpreter::interpret`: run `program()` on a fresh state.  The C++
wrapper catches the exception and prints it to `stderr`; the outcome (and
the state the object is left in) is returned here. -/
def interpretRun (fuel : Nat) (text : String) : Except Err Unit × ISt :=
  progLoop fuel (mkISt text)

/-! ## The bytecode virtual machine (`virtualMachine.cpp`)

Instructions are the raw `std::string`s of the program vector, modelled as
`List Char` so that the source's fixed-offset operand decoding
(`instruction[4] - '0'`, `instruction.substr(6)`, …) is immediate. -/

/-- The `VirtualMachine` object state.  `memory` is the `new int[100]` heap:
cells are `Option Int`, `none` meaning "never written" (reading such a cell
is reading an indeterminate value — undefined behaviour).  `errLog` models
the `std::cerr` lines printed by the `catch` in `run`. -/
structure VMSt where
  registers : List Int
  memory : List (Option Int)
  stackPointer : Int
  program : List (List Char)
  pc : Nat
  running : Bool
  callStack : List Nat
  labels : List (List Char × Nat)
  errLog : List String
deriving DecidableEq, Repr

/-- Freshly constructed VM: six zero registers, 100 uninitialized heap
cells, stack pointer 99, nothing loaded. -/
def initVM : VMSt :=
  ⟨List.replicate 6 0, List.replicate 100 none, 99, [], 0, false, [], [], []⟩

/-- `VirtualMachine::load`. -/
def loadVM (st : VMSt) (prog : List (List Char)) : VMSt := { st with program := prog }

/-- `VirtualMachine::defineLabel`: records the *current* program length. -/
def defineLabel (st : VMSt) (label : List Char) : VMSt :=
  { st with labels := setAssoc st.labels label st.program.length }

/-- `instruction[i]` on a `std::string`: in range yields the character, at
`size()` the null character, past it undefined behaviour. -/
def charAt (l : List Char) (i : Nat) : Except Err Char :=
  if i < l.length then .ok (l.getD i '\x00')
  else if i = l.length then .ok '\x00'
  else .error (.ub "string index out of bounds")

/-- `instruction.substr(i)`: suffix from `i`; `std::out_of_range` when `i`
exceeds `size()`. -/
def substrFrom (l : List Char) (i : Nat) : Except Err (List Char) :=
  if i ≤ l.length then .ok (l.drop i) else .error (.raised "substr: out of range")

/-- Read `registers[i]`: the file has exactly 6 slots, any other index is an
out-of-bounds access into a raw `int[6]` — undefined behaviour. -/
def getReg (st : VMSt) (i : Int) : Except Err Int :=
  if 0 ≤ i ∧ i < 6 then .ok (st.registers.getD i.toNat 0)
  else .error (.ub "register index out of bounds")

/-- Write `registers[i] = v`, with the same bounds caveat. -/
def setReg (st : VMSt) (i : Int) (v : Int) : Except Err VMSt :=
  if 0 ≤ i ∧ i < 6 then .ok { st with registers := st.registers.set i.toNat v }
  else .error (.ub "register index out of bounds")

/-- The register index denoted by a decoded character: `c - '0'` as a C++
`int` (no validation whatsoever in the source). -/
def regOfChar (c : Char) : Int := (c.toNat : Int) - 48

/-- `VirtualMachine::mov` (lines 107–111): register character at offset 4,
immediate = `stoi(substr(6))`. -/
def mov (instr : List Char) (st : VMSt) : Except Err Unit × VMSt :=
  match charAt instr 4 with
  | .error e => (.error e, st)
  | .ok c =>
    match substrFrom instr 6 with
    | .error e => (.error e, st)
    | .ok tl =>
      match stoiList tl with
      | .error e => (.error e, st)
      | .ok v =>
        match setReg st (regOfChar c) v with
        | .error e => (.error e, st)
        | .ok st' => (.ok (), st')

/-- `VirtualMachine::arithmetic` (lines 113–136): register characters at
offsets 4 and 6.  `DIV`/`MOD` test `registers[reg2] == 0` (an access) and
throw `std::runtime_error` on zero; division/modulus are C++ truncated
`Int.tdiv`/`Int.tmod`.  `EXP` goes through `std::pow` on `double`s, which
this development does not model (`Err.unmodelled`); no claim touches it. -/
def arithmetic (instr : List Char) (op : String) (st : VMSt) : Except Err Unit × VMSt :=
  match charAt instr 4 with
  | .error e => (.error e, st)
  | .ok c1 =>
    match charAt instr 6 with
    | .error e => (.error e, st)
    | .ok c2 =>
      let reg1 := regOfChar c1
      let reg2 := regOfChar c2
      match getReg st reg2 with
      | .error e => (.error e, st)
      | .ok v2 =>
        if (op = "DIV" ∨ op = "MOD") ∧ v2 = 0 then
          (.error (.raised (if op = "DIV" then "Error: Division by zero!"
                            else "Error: Modulus by zero!")), st)
        else if op = "EXP" then (.error (.unmodelled "EXP: floating-point pow"), st)
        else
          match getReg st reg1 with
          | .error e => (.error e, st)
          | .ok v1 =>
            let res : Int :=
              if op = "ADD" then v1 + v2
              else if op = "SUB" then v1 - v2
              else if op = "MUL" then v1 * v2
              else if op = "DIV" then v1.tdiv v2
              else v1.tmod v2
            match setReg st reg1 res with
            | .error e => (.error e, st)
            | .ok st' => (.ok (), st')

/-- `VirtualMachine::comparison` (lines 138–152): register characters at
offsets 4 and 6; stores 1 or 0 into `registers[reg1]`. -/
def comparison (instr : List Char) (op : String) (st : VMSt) : Except Err Unit × VMSt :=
  match charAt instr 4 with
  | .error e => (.error e, st)
  | .ok c1 =>
    match charAt instr 6 with
    | .error e => (.error e, st)
    | .ok c2 =>
      let reg1 := regOfChar c1
      let reg2 := regOfChar c2
      match getReg st reg1 with
      | .error e => (.error e, st)
      | .ok v1 =>
        match getReg st reg2 with
        | .error e => (.error e, st)
        | .ok v2 =>
          let res : Bool :=
            if op = "GT" then v1 > v2
            else if op = "LT" then v1 < v2
            else v1 = v2
          match setReg st reg1 (if res then 1 else 0) with
          | .error e => (.error e, st)
          | .ok st' => (.ok (), st')

/-- `VirtualMachine::print` (lines 154–157): reads `registers[instr[6]-'0']`
and writes a line to `std::cout` (the emission itself is external I/O and
not part of the machine state). -/
def printOp (instr : List Char) (st : VMSt) : Except Err Unit × VMSt :=
  match charAt instr 6 with
  | .error e => (.error e, st)
  | .ok c =>
    match getReg st (regOfChar c) with
    | .error e => (.error e, st)
    | .ok _ => (.ok (), st)

/-- `VirtualMachine::jump` (lines 159–165): label = `substr(4)`;
`std::invalid_argument` when the label was never registered. -/
def jump (instr : List Char) (st : VMSt) : Except Err Unit × VMSt :=
  match substrFrom instr 4 with
  | .error e => (.error e, st)
  | .ok label =>
    match lookupA st.labels label with
    | none => (.error (.raised ("Error: Undefined label " ++ String.mk label)), st)
    | some tgt => (.ok (), { st with pc := tgt })

/-- `VirtualMachine::jumpIfEqual` (lines 167–175): registers at offsets 4
and 6, label = `substr(8)`; on equality delegates to
`jump("JMP " + label)`. -/
def jumpIfEqual (instr : List Char) (st : VMSt) : Except Err Unit × VMSt :=
  match charAt instr 4 with
  | .error e => (.error e, st)
  | .ok c1 =>
    match charAt instr 6 with
    | .error e => (.error e, st)
    | .ok c2 =>
      match substrFrom instr 8 with
      | .error e => (.error e, st)
      | .ok label =>
        match getReg st (regOfChar c1) with
        | .error e => (.error e, st)
        | .ok v1 =>
          match getReg st (regOfChar c2) with
          | .error e => (.error e, st)
          | .ok v2 =>
            if v1 = v2 then jump ("JMP ".toList ++ label) st
            else (.ok (), st)

/-- `VirtualMachine::call` (lines 177–184): label = `substr(5)`; note the
source pushes the return address *before* checking that the label exists,
so a failed `CALL` leaves the pushed frame behind. -/
def call (instr : List Char) (st : VMSt) : Except Err Unit × VMSt :=
  match substrFrom instr 5 with
  | .error e => (.error e, st)
  | .ok label =>
    let st1 := { st with callStack := st.pc :: st.callStack }
    match lookupA st1.labels label with
    | none => (.error (.raised ("Error: Undefined label " ++ String.mk label)), st1)
    | some tgt => (.ok (), { st1 with pc := tgt })

/-- `VirtualMachine::ret` (lines 186–192): pop the return address;
`std::runtime_error` when the call stack is empty. -/
def ret (st : VMSt) : Except Err Unit × VMSt :=
  match st.callStack with
  | [] => (.error (.raised "Error: Return from empty call stack!"), st)
  | top :: rest => (.ok (), { st with pc := top, callStack := rest })

/-- `VirtualMachine::alloc` (lines 194–200): size = `stoi(substr(6))`;
`std::runtime_error` when the simulated stack pointer would go negative. -/
def alloc (instr : List Char) (st : VMSt) : Except Err Unit × VMSt :=
  match substrFrom instr 6 with
  | .error e => (.error e, st)
  | .ok tl =>
    match stoiList tl with
    | .error e => (.error e, st)
    | .ok size =>
      if st.stackPointer - size < 0 then (.error (.raised "Error: Out of memory!"), st)
      else (.ok (), { st with stackPointer := st.stackPointer - size })

/-- `VirtualMachine::store` (lines 202–206): register at offset 6, address
= `stoi(substr(8))`; the write `memory[addr] = ...` has *no* bounds check —
an address outside `[0,100)` is an out-of-bounds raw-array write. -/
def store (instr : List Char) (st : VMSt) : Except Err Unit × VMSt :=
  match charAt instr 6 with
  | .error e => (.error e, st)
  | .ok c =>
    match substrFrom instr 8 with
    | .error e => (.error e, st)
    | .ok tl =>
      match stoiList tl with
      | .error e => (.error e, st)
      | .ok addr =>
        match getReg st (regOfChar c) with
        | .error e => (.error e, st)
        | .ok v =>
          if 0 ≤ addr ∧ addr < 100 then
            (.ok (), { st with memory := st.memory.set addr.toNat (some v) })
          else (.error (.ub "heap write out of bounds"), st)

/-- `VirtualMachine::loadFromHeap` (lines 208–215): register at offset 6,
address = `stoi(substr(8))`; addresses outside `[0,100)` throw
`std::out_of_range`; reading a never-written cell reads an indeterminate
value. -/
def loadFromHeap (instr : List Char) (st : VMSt) : Except Err Unit × VMSt :=
  match charAt instr 6 with
  | .error e => (.error e, st)
  | .ok c =>
    match substrFrom instr 8 with
    | .error e => (.error e, st)
    | .ok tl =>
      match stoiList tl with
      | .error e => (.error e, st)
      | .ok addr =>
        if addr < 0 ∨ 100 ≤ addr then
          (.error (.raised "Error: Invalid memory address!"), st)
        else
          match st.memory.getD addr.toNat none with
          | none => (.error (.ub "uninitialized heap read"), st)
          | some v =>
            match setReg st (regOfChar c) v with
            | .error e => (.error e, st)
            | .ok st' => (.ok (), st')

/-- `VirtualMachine::execute` (lines 63–105).  The dispatcher compares
`op = instruction.substr(0, 3)` — at most three characters — against each
opcode name, *including* the longer names `PRINT`, `CALL`, `ALLOC`,
`STORE`, `LOAD` and the shorter `GT`/`LT`/`EQ` (whose 3-character prefix of
a well-formed instruction ends in a space), so those comparisons can never
succeed for their intended instructions. -/
def execute (instr : List Char) (st : VMSt) : Except Err Unit × VMSt :=
  let op := instr.take 3
  if op = "MOV".toList then mov instr st
  else if op = "ADD".toList then arithmetic instr "ADD" st
  else if op = "SUB".toList then arithmetic instr "SUB" st
  else if op = "MUL".toList then arithmetic instr "MUL" st
  else if op = "DIV".toList then arithmetic instr "DIV" st
  else if op = "MOD".toList then arithmetic instr "MOD" st
  else if op = "EXP".toList then arithmetic instr "EXP" st
  else if op = "GT".toList then comparison instr "GT" st
  else if op = "LT".toList then comparison instr "LT" st
  else if op = "EQ".toList then comparison instr "EQ" st
  else if op = "PRINT".toList then printOp instr st
  else if op = "JMP".toList then jump instr st
  else if op = "JEQ".toList then jumpIfEqual instr st
  else if op = "CALL".toList then call instr st
  else if op = "RET".toList then ret st
  else if op = "ALLOC".toList then alloc instr st
  else if op = "STORE".toList then store instr st
  else if op = "LOAD".toList then loadFromHeap instr st
  else (.error (.raised ("Unknown instruction: " ++ String.mk instr)), st)

/-- The fetch–decode–execute loop of `VirtualMachine::run` (lines 36–44):
fetch `program[pc++]`, execute, and catch any `std::exception` (logging it
and clearing `running`, which ends the run at the faulting instruction).
Undefined behaviour is not an exception and aborts the whole model. -/
def runLoop : Nat → VMSt → Except Err Unit × VMSt
  | 0, st => (.error .fuel, st)
  | fuel+1, st =>
    if st.running ∧ st.pc < st.program.length then
      let instr := st.program.getD st.pc []
      let st1 := { st with pc := st.pc + 1 }
      match execute instr st1 with
      | (.ok _, st2) => runLoop fuel st2
      | (.error (.raised m), st2) =>
        runLoop fuel { st2 with running := false, errLog := st2.errLog ++ [m] }
      | (.error e, st2) => (.error e, st2)
    else (.ok (), st)

/-- `VirtualMachine::run`: reset the program counter, set `running`, loop. -/
def runVM (fuel : Nat) (st : VMSt) : Except Err Unit × VMSt :=
  runLoop fuel { st with pc := 0, running := true }

/-! ## Infrastructure lemmas

Expressions never create, destroy or mutate symbol-table entries or the
input buffer: every grammar production only moves the cursor (and
`call_function` restores what it swapped).  `tabs` projects exactly the
components that are preserved. -/

/-- The components of the interpreter state untouched by expression
evaluation: variable table, array table, function table, input buffer. -/
def tabs (s : ISt) :
    List (String × Int) × List (String × List Int) × List (String × Func) × List Char :=
  (s.vars, s.arrays, s.functions, s.input)

@[simp] theorem tabs_advance (s : ISt) : tabs (advance s) = tabs s := rfl

@[simp] theorem tabs_skipWsF : ∀ (n : Nat) (s : ISt), tabs (skipWsF n s) = tabs s := by
  intro n
  induction n with
  | zero => intro s; rfl
  | succ m ih =>
    intro s
    unfold skipWsF
    split
    · exact ih (advance s)
    · rfl

@[simp] theorem tabs_skipWs (s : ISt) : tabs (skipWs s) = tabs s := tabs_skipWsF _ s

@[simp] theorem tabs_digitsAuxF : ∀ (n : Nat) (s : ISt), tabs (digitsAuxF n s).2 = tabs s := by
  intro n
  induction n with
  | zero => intro s; rfl
  | succ m ih =>
    intro s
    unfold digitsAuxF
    split
    · exact ih (advance s)
    · rfl

@[simp] theorem tabs_identAuxF : ∀ (n : Nat) (s : ISt), tabs (identAuxF n s).2 = tabs s := by
  intro n
  induction n with
  | zero => intro s; rfl
  | succ m ih =>
    intro s
    unfold identAuxF
    split
    · exact ih (advance s)
    · rfl

@[simp] theorem tabs_identAux (s : ISt) : tabs (identAux s).2 = tabs s :=
  tabs_identAuxF _ s

@[simp] theorem tabs_integer (s : ISt) : tabs (integer s).2 = tabs s :=
  tabs_digitsAuxF _ s

@[simp] theorem tabs_identifier (s : ISt) : tabs (identifier s).2 = tabs s :=
  tabs_identAux s

/-- Expression evaluation (all productions, their loops, and
`call_function` itself) never changes the symbol tables or the input
buffer — on success, failure and fuel exhaustion alike: only the cursor
moves, and `call_function` restores what it swaps. -/
theorem tabs_eval : ∀ fuel : Nat,
    (∀ s r s', factor fuel s = (r, s') → tabs s' = tabs s) ∧
    (∀ acc s r s', termLoop fuel acc s = (r, s') → tabs s' = tabs s) ∧
    (∀ s r s', term fuel s = (r, s') → tabs s' = tabs s) ∧
    (∀ acc s r s', exprLoop fuel acc s = (r, s') → tabs s' = tabs s) ∧
    (∀ s r s', expr fuel s = (r, s') → tabs s' = tabs s) ∧
    (∀ ps first s r s', argsLoop fuel ps first s = (r, s') → tabs s' = tabs s) ∧
    (∀ fn s r s', callPre fuel fn s = (r, s') → tabs s' = tabs s) ∧
    (∀ fn s r s', call_function fuel fn s = (r, s') → tabs s' = tabs s) := by
  intro fuel
  induction fuel with
  | zero =>
    refine ⟨?_, ?_, ?_, ?_, ?_, ?_, ?_, ?_⟩ <;> intros <;> rename_i h <;>
      simp only [factor, termLoop, term, exprLoop, expr, argsLoop, callPre,
        call_function] at h <;>
      (injection h with h1 h2; subst h2; rfl)
  | succ n ih =>
    obtain ⟨ihF, ihTL, ihT, ihEL, ihE, ihA, ihP, ihC⟩ := ih
    refine ⟨?_, ?_, ?_, ?_, ?_, ?_, ?_, ?_⟩
    · -- factor
      intro s r s' h
      simp only [factor] at h
      split at h
      · injection h with h1 h2
        subst h2
        simp
      · split at h
        · split at h
          · -- array access
            split at h
            · rename_i heq
              injection h with h1 h2
              subst h2
              exact (ihE _ _ _ heq).trans (by simp)
            · rename_i heq
              split at h
              · injection h with h1 h2
                subst h2
                exact (ihE _ _ _ heq).trans (by simp)
              · split at h
                · split at h
                  all_goals injection h with h1 h2
                  all_goals subst h2
                  all_goals simp only [tabs_advance]
                  all_goals exact (ihE _ _ _ heq).trans (by simp)
                · injection h with h1 h2
                  subst h2
                  simp only [tabs_advance]
                  exact (ihE _ _ _ heq).trans (by simp)
          · -- plain identifier / variable / function call
            split at h
            · injection h with h1 h2
              subst h2
              simp
            · split at h
              · exact (ihC _ _ _ _ h).trans (by simp)
              · injection h with h1 h2
                subst h2
                simp
        · split at h
          · -- parenthesized expression
            split at h
            · rename_i heq
              injection h with h1 h2
              subst h2
              exact (ihE _ _ _ heq).trans (by simp)
            · rename_i heq
              split at h
              all_goals injection h with h1 h2
              all_goals subst h2
              · exact (ihE _ _ _ heq).trans (by simp)
              · simp only [tabs_advance]
                exact (ihE _ _ _ heq).trans (by simp)
          · injection h with h1 h2
            subst h2
            simp
    · -- termLoop
      intro acc s r s' h
      simp only [termLoop] at h
      split at h
      · split at h
        · rename_i heq
          injection h with h1 h2
          subst h2
          exact (ihF _ _ _ heq).trans (by simp)
        · rename_i heq
          split at h
          · exact (ihTL _ _ _ _ h).trans ((ihF _ _ _ heq).trans (by simp))
          · split at h
            · injection h with h1 h2
              subst h2
              exact (ihF _ _ _ heq).trans (by simp)
            · exact (ihTL _ _ _ _ h).trans ((ihF _ _ _ heq).trans (by simp))
      · injection h with h1 h2
        subst h2
        rfl
    · -- term
      intro s r s' h
      simp only [term] at h
      split at h
      · rename_i heq
        injection h with h1 h2
        subst h2
        exact (ihF _ _ _ heq).trans (by simp)
      · rename_i heq
        exact (ihTL _ _ _ _ h).trans ((ihF _ _ _ heq).trans (by simp))
    · -- exprLoop
      intro acc s r s' h
      simp only [exprLoop] at h
      split at h
      · split at h
        · rename_i heq
          injection h with h1 h2
          subst h2
          exact (ihT _ _ _ heq).trans (by simp)
        · rename_i heq
          split at h
          all_goals exact (ihEL _ _ _ _ h).trans ((ihT _ _ _ heq).trans (by simp))
      · injection h with h1 h2
        subst h2
        rfl
    · -- expr
      intro s r s' h
      simp only [expr] at h
      split at h
      · rename_i heq
        injection h with h1 h2
        subst h2
        exact (ihT _ _ _ heq).trans (by simp)
      · rename_i heq
        exact (ihEL _ _ _ _ h).trans ((ihT _ _ _ heq).trans (by simp))
    · -- argsLoop
      intro ps first s r s' h
      match ps with
      | [] =>
        simp only [argsLoop] at h
        injection h with h1 h2
        subst h2
        rfl
      | p :: ps2 =>
        simp only [argsLoop] at h
        split at h
        · injection h with h1 h2
          subst h2
          rfl
        · split at h
          · rename_i heq
            injection h with h1 h2
            subst h2
            exact (ihE _ _ _ heq).trans (by cases first <;> simp)
          · rename_i heq
            have hs2 : tabs _ = tabs s := (ihE _ _ _ heq).trans (by cases first <;> simp)
            split at h
            all_goals rename_i heq2
            all_goals injection h with h1 h2
            all_goals subst h2
            all_goals exact (ihA _ _ _ _ _ heq2).trans hs2
    · -- callPre
      intro fn s r s' h
      simp only [callPre] at h
      split at h
      · injection h with h1 h2
        subst h2
        rfl
      · split at h
        · injection h with h1 h2
          subst h2
          simp
        · split at h
          · rename_i heq
            injection h with h1 h2
            subst h2
            exact (ihA _ _ _ _ _ heq).trans (by simp)
          · rename_i heq
            split at h
            all_goals injection h with h1 h2
            all_goals subst h2
            · exact (ihA _ _ _ _ _ heq).trans (by simp)
            · simp only [tabs_advance]
              exact (ihA _ _ _ _ _ heq).trans (by simp)
    · -- call_function
      intro fn s r s' h
      simp only [call_function] at h
      split at h
      · rename_i heq
        injection h with h1 h2
        subst h2
        exact ihP _ _ _ _ heq
      · rename_i func args s2 heq
        have hp := ihP _ _ _ _ heq
        split at h
        all_goals rename_i heq2
        all_goals have he := ihE _ _ _ heq2
        all_goals injection h with h1 h2
        all_goals subst h2
        all_goals simp only [tabs, restoreFrom, bodyState, Prod.mk.injEq] at hp he ⊢
        all_goals exact ⟨hp.1, by simp_all, by simp_all, hp.2.2.2⟩

/-- `tabs_eval`, specialised to `expr`. -/
theorem expr_tabs {fuel : Nat} {s : ISt} {r : Except Err Int} {s' : ISt}
    (h : expr fuel s = (r, s')) : tabs s' = tabs s :=
  (tabs_eval fuel).2.2.2.2.1 s r s' h

/-- `tabs_eval`, specialised to `callPre`. -/
theorem callPre_tabs {fuel : Nat} {fn : String} {s : ISt}
    {r : Except Err (Func × List Int)} {s' : ISt}
    (h : callPre fuel fn s = (r, s')) : tabs s' = tabs s :=
  (tabs_eval fuel).2.2.2.2.2.2.1 fn s r s' h

/-- `argsLoop` produces exactly one argument per declared parameter. -/
theorem argsLoop_length : ∀ (fuel : Nat) (ps : List String) (first : Bool) (s : ISt)
    (args : List Int) (s' : ISt),
    argsLoop fuel ps first s = (.ok args, s') → args.length = ps.length := by
  intro fuel
  induction fuel with
  | zero =>
    intro ps first s args s' h
    simp only [argsLoop] at h
    exact absurd (congrArg Prod.fst h) (by simp)
  | succ n ih =>
    intro ps first s args s' h
    match ps with
    | [] =>
      simp only [argsLoop] at h
      have := congrArg Prod.fst h
      simp at this
      simp [← this]
    | p :: ps2 =>
      simp only [argsLoop] at h
      split at h
      · exact absurd (congrArg Prod.fst h) (by simp)
      · split at h
        · exact absurd (congrArg Prod.fst h) (by simp)
        · split at h
          · exact absurd (congrArg Prod.fst h) (by simp)
          · rename_i heq2
            have := congrArg Prod.fst h
            simp at this
            simp [← this, ih _ _ _ _ _ heq2]

/-- Looking up the key just written by `setAssoc`. -/
theorem lookupA_setAssoc_self {α : Type} (m : List (String × α)) (k : String) (v : α) :
    lookupA (setAssoc m k v) k = some v := by
  induction m with
  | nil => simp [setAssoc, lookupA]
  | cons hd tl ih =>
    obtain ⟨k', w⟩ := hd
    by_cases hk : k' = k
    · simp [setAssoc, hk, lookupA]
    · simp [setAssoc, hk, lookupA, ih]

/-- `setAssoc` leaves other keys alone. -/
theorem lookupA_setAssoc_ne {α : Type} (m : List (String × α)) (k k' : String) (v : α)
    (hne : k' ≠ k) : lookupA (setAssoc m k v) k' = lookupA m k' := by
  have hne2 : ¬ k = k' := fun h => hne h.symm
  induction m with
  | nil => simp [setAssoc, lookupA, hne2]
  | cons hd tl ih =>
    obtain ⟨k0, w⟩ := hd
    by_cases hk : k0 = k
    · subst hk
      simp [setAssoc, lookupA, hne2]
    · simp [setAssoc, hk, lookupA, ih]

/-- Names that are not parameters are not touched by parameter binding. -/
theorem lookupA_bindParams_notMem (ps : List String) (args : List Int)
    (m : List (String × Int)) (nm : String) (hnm : nm ∉ ps) :
    lookupA (bindParams m ps args) nm = lookupA m nm := by
  induction ps generalizing args m with
  | nil => simp [bindParams]
  | cons p ps2 ih =>
    match args with
    | [] => simp [bindParams]
    | a :: args2 =>
      simp only [bindParams, List.zip_cons_cons, List.foldl_cons]
      have h1 : nm ∉ ps2 := fun hh => hnm (List.mem_cons_of_mem _ hh)
      have h2 : nm ≠ p := fun hh => hnm (hh ▸ List.mem_cons_self _ _)
      exact (ih args2 (setAssoc m p a) h1).trans (lookupA_setAssoc_ne m p nm a h2)

/-- With distinct parameter names and one argument per parameter, parameter
binding associates the i-th parameter with the i-th argument. -/
theorem lookupA_bindParams_get (ps : List String) (args : List Int)
    (m : List (String × Int)) (i : Nat) (hi : i < ps.length)
    (hlen : args.length = ps.length) (hnd : ps.Nodup) :
    lookupA (bindParams m ps args) (ps.getD i "") = some (args.getD i 0) := by
  induction ps generalizing args m i with
  | nil => simp at hi
  | cons p ps2 ih =>
    match args with
    | [] => simp at hlen
    | a :: args2 =>
      simp only [bindParams, List.zip_cons_cons, List.foldl_cons]
      match i with
      | 0 =>
        simp only [List.getD_cons_zero]
        have hp : p ∉ ps2 := (List.nodup_cons.mp hnd).1
        exact (lookupA_bindParams_notMem ps2 args2 (setAssoc m p a) p hp).trans
          (lookupA_setAssoc_self m p a)
      | i + 1 =>
        simp only [List.getD_cons_succ]
        exact ih args2 (setAssoc m p a) i (by simpa using hi)
          (by simpa using hlen) (List.nodup_cons.mp hnd).2

/-- An alphabetic character is not whitespace, not a digit, not the null
character, and is a valid identifier character. -/
theorem alpha_facts {c : Char} (h : isAlphaC c = true) :
    isSpaceC c = false ∧ isDigitC c = false ∧ c ≠ '\x00' ∧ isIdentC c = true := by
  simp only [isAlphaC, decide_eq_true_eq] at h
  refine ⟨?_, ?_, ?_, ?_⟩
  · simp only [isSpaceC, decide_eq_false_iff_not]
    omega
  · simp only [isDigitC, decide_eq_false_iff_not]
    omega
  · intro hc
    subst hc
    revert h
    decide
  · simp only [isIdentC, isAlnumC, isAlphaC, isDigitC, Bool.or_eq_true, decide_eq_true_eq]
    omega

/-- The current character is the head of the remaining input. -/
theorem cur_eq_headD (s : ISt) : cur s = (s.input.drop s.pos).headD '\x00' := by
  unfold cur
  induction s.input generalizing s with
  | nil => simp
  | cons c cs ih =>
    match hp : s.pos with
    | 0 => simp
    | p + 1 =>
      have hh := ih ⟨cs, p, s.vars, s.arrays, s.functions⟩
      simp only [List.drop_succ_cons, List.getD_cons_succ]
      exact hh

/-- `skip_whitespace` does nothing when the current character is not
whitespace. -/
theorem skipWs_eq_self {s : ISt} (h : isSpaceC (cur s) = false) : skipWs s = s := by
  unfold skipWs
  match s.input.length - s.pos with
  | 0 => rfl
  | n+1 => simp [skipWsF, h]

/-- The `identifier` scanning loop (with exact bound) consumes exactly the
maximal run of identifier characters at the cursor. -/
theorem identAuxF_scan : ∀ (name : List Char) (n : Nat) (s : ISt) (rest : List Char),
    n = name.length + rest.length →
    s.input.drop s.pos = name ++ rest →
    (∀ c ∈ name, isIdentC c = true ∧ c ≠ '\x00') →
    isIdentC (rest.headD '\x00') = false →
    identAuxF n s = (name, { s with pos := s.pos + name.length }) := by
  intro name
  induction name with
  | nil =>
    intro n s rest hn hdrop hname hrest
    match n with
    | 0 => simp [identAuxF]
    | m+1 =>
      have hcur : cur s = rest.headD '\x00' := by
        rw [cur_eq_headD, hdrop]
        rfl
      simp only [identAuxF]
      rw [if_neg]
      · simp
      · rw [hcur]
        simp only [List.headD] at hrest ⊢
        simp [hrest]
  | cons c cs ih =>
    intro n s rest hn hdrop hname hrest
    have hcur : cur s = c := by
      rw [cur_eq_headD, hdrop]
      simp
    have hc := hname c (List.mem_cons_self _ _)
    match n with
    | 0 => exact absurd hn (by simp; omega)
    | m+1 =>
      have hm : m = cs.length + rest.length := by
        simp only [List.length_cons] at hn
        omega
      have hdrop2 : (advance s).input.drop (advance s).pos = cs ++ rest := by
        simp only [advance]
        rw [← List.drop_drop, hdrop]
        simp
      have ihr := ih m (advance s) rest hm hdrop2
        (fun x hx => hname x (List.mem_cons_of_mem _ hx)) hrest
      simp only [identAuxF]
      rw [if_pos ⟨hcur ▸ hc.2, hcur ▸ hc.1⟩]
      rw [ihr]
      simp only [hcur, advance, Prod.mk.injEq, List.length_cons]
      refine ⟨trivial, ?_⟩
      congr 1
      omega

/-- `identifier`'s scan, stated on `identAux` itself. -/
theorem identAux_scan (name : List Char) (s : ISt) (rest : List Char)
    (hdrop : s.input.drop s.pos = name ++ rest)
    (hname : ∀ c ∈ name, isIdentC c = true ∧ c ≠ '\x00')
    (hrest : isIdentC (rest.headD '\x00') = false) :
    identAux s = (name, { s with pos := s.pos + name.length }) := by
  unfold identAux
  have hlen : s.input.length - s.pos = name.length + rest.length := by
    have hh := congrArg List.length hdrop
    simpa using hh
  rw [hlen]
  exact identAuxF_scan name _ s rest rfl hdrop hname hrest

/-! ## Claims -/

/-- Claim C9, counterexample.  The claim states that `2 + 3 * 4` (with the
spaces as written) evaluates to 14.  It does not: whitespace is only
skipped at the start of `factor`, never before a binary operator, so the
`term`/`expr` loops stop at the first space and the expression evaluates to
just `2`. -/
theorem c9_counterexample :
    (expr 50 (mkISt "2 + 3 * 4")).1 = .ok 2 ∧ (expr 50 (mkISt "2 + 3 * 4")).1 ≠ .ok 14 := by
  constructor
  · decide
  · decide

/-- Claim C9, amended.  Expression evaluation is left-associative
precedence climbing, but operators must not be preceded by whitespace:
without internal spaces `2+3*4 = 14` and `(2+3)*4 = 20` (and `100/10/5 = 2`,
`10-3-2 = 5`, witnessing left associativity), while `2 + 3 * 4` as written
in the claim evaluates to `2`. -/
theorem c9_amended :
    (expr 50 (mkISt "2+3*4")).1 = .ok 14 ∧
    (expr 50 (mkISt "(2+3)*4")).1 = .ok 20 ∧
    (expr 50 (mkISt "100/10/5")).1 = .ok 2 ∧
    (expr 50 (mkISt "10-3-2")).1 = .ok 5 := by
  refine ⟨?_, ?_, ?_, ?_⟩ <;> decide

/-- Claim C4, counterexample.  The claim states that a division whose
divisor evaluates to 0 fails with an ArithmeticError because the division
in `term` is guarded.  It is not guarded: `result /= factor();` divides
unconditionally, so `1/0` runs into C++ undefined behaviour (the `Err.ub`
outcome) — no exception of any kind is raised. -/
theorem c4_counterexample :
    (expr 50 (mkISt "1/0")).1 = .error (.ub "division by zero") ∧
    (expr 50 (mkISt "1/0")).1 ≠ .error (.raised "Error: Division by zero") ∧
    (interpretRun 50 "x = 1/0;").1 = .error (.ub "division by zero") := by
  refine ⟨?_, ?_, ?_⟩ <;> decide

/-- Claim C4, amended.  The interpreter's `term` does *not* guard division:
whenever the divisor factor evaluates to 0, evaluation reaches the
unguarded `result /= factor()` — C++ undefined behaviour, modelled as
`Err.ub`, not a raised ArithmeticError.  (Modulus does not exist in the
interpreter's grammar at all: `term` only handles `*` and `/`.) -/
theorem c4_amended (fuel : Nat) (acc : Int) (s s1 : ISt)
    (hcur : cur s = '/') (hfac : factor fuel (advance s) = (.ok 0, s1)) :
    termLoop (fuel + 1) acc s = (.error (.ub "division by zero"), s1) := by
  simp [termLoop, hcur, hfac]

/-- Witness for `c4_amended` at the concrete state `"/0"` with
accumulator 7. -/
theorem c4_amended_witness :
    termLoop 6 7 (mkISt "/0") = (.error (.ub "division by zero"), ⟨"/0".toList, 2, [], [], []⟩) :=
  c4_amended 5 7 (mkISt "/0") ⟨"/0".toList, 2, [], [], []⟩ (by decide) (by decide)

/-- Claim C1.  The claim states that `function f(x){x*x}` succeeds as a
statement and that `f(5)` then evaluates to 25.  In fact *every* function
declaration fails: `statement()` tests `isalpha(current_char)` before it
tests `current_char == 'f'`, and `'f'` is alphabetic, so the keyword
`function` is consumed as a plain identifier; the next (non-`=`/`(`/`[`)
character then triggers `error("Invalid statement")`, and the
function-declaration branch is unreachable.  This theorem evaluates the
interpreter at the failing input (both the claim's full scenario and the
minimal declaration). -/
theorem c1_thm :
    (interpretRun 80 "x = 3; function f(x){x*x}; y = f(5);").1
        = .error (.raised "Error: Invalid statement") ∧
    (interpretRun 80 "function f(x){x*x};").1
        = .error (.raised "Error: Invalid statement") ∧
    (interpretRun 80 "x = 3; function f(x){x*x}; y = f(5);").2.functions = [] := by
  refine ⟨?_, ?_, ?_⟩ <;> decide

/-- A successful `callPre` found the function in the table and collected
exactly one argument per declared parameter. -/
theorem callPre_ok_facts (fuel : Nat) (fn : String) (s s2 : ISt) (func : Func)
    (args : List Int) (h : callPre fuel fn s = (.ok (func, args), s2)) :
    lookupA s.functions fn = some func ∧ args.length = func.params.length := by
  match fuel with
  | 0 =>
    exact absurd (congrArg Prod.fst h) (by simp [callPre])
  | n+1 =>
    simp only [callPre] at h
    split at h
    · exact absurd (congrArg Prod.fst h) (by simp)
    · rename_i func0 hlook
      split at h
      · exact absurd (congrArg Prod.fst h) (by simp)
      · split at h
        · exact absurd (congrArg Prod.fst h) (by simp)
        · rename_i args0 s20 heq
          split at h
          · exact absurd (congrArg Prod.fst h) (by simp)
          · have h1 := congrArg Prod.fst h
            simp only [Prod.mk.injEq, Except.ok.injEq] at h1
            obtain ⟨hfe, hae⟩ := h1
            subst hfe
            subst hae
            exact ⟨hlook, argsLoop_length n _ _ _ _ _ heq⟩

/-- Claim C5, counterexample.  The claim ends "…and subsequent caller
statements execute correctly".  They do not: a failure propagating out of a
call aborts the whole run (`program()` has no recovery), so in
`y=f(2);w=3;` — with `f`'s body referencing the undefined symbol `zz` — the
statement `w=3` never executes (`w` is absent from the final table), even
though the variable table is correctly restored to its pre-call state. -/
theorem c5_counterexample :
    (progLoop 50 ⟨"y=f(2);w=3;".toList, 0, [], [], [("f", ⟨["x"], "zz".toList⟩)]⟩).1
        = .error (.raised "Error: Undefined variable or function: zz") ∧
    (progLoop 50 ⟨"y=f(2);w=3;".toList, 0, [], [], [("f", ⟨["x"], "zz".toList⟩)]⟩).2.vars
        = [] ∧
    lookupA (progLoop 50
        ⟨"y=f(2);w=3;".toList, 0, [], [], [("f", ⟨["x"], "zz".toList⟩)]⟩).2.vars "w"
        = none := by
  refine ⟨?_, ?_, ?_⟩ <;> decide

/-- Claim C5, amended.  When a function call's body evaluation fails, the
failure propagates to the caller only after the cursor position, the input
buffer and the entire variable table have been restored to their pre-call
values (and the array and function tables are likewise unchanged), so the
caller's state is exactly as before the call; the propagated failure then
aborts the rest of the run — subsequent caller statements do *not*
execute. -/
theorem c5_amended :
    (∀ (fuel : Nat) (fname : String) (s s2 s5 : ISt) (func : Func)
        (args : List Int) (e : Err),
        callPre fuel fname s = (.ok (func, args), s2) →
        expr fuel (bodyState func args s2) = (.error e, s5) →
        call_function (fuel + 1) fname s = (.error e, restoreFrom s2 s5) ∧
        (restoreFrom s2 s5).vars = s.vars ∧
        (restoreFrom s2 s5).input = s.input ∧
        (restoreFrom s2 s5).pos = s2.pos ∧
        (restoreFrom s2 s5).arrays = s.arrays ∧
        (restoreFrom s2 s5).functions = s.functions) ∧
    (∀ (fuel : Nat) (s s' : ISt) (e : Err),
        cur s ≠ '\x00' →
        statement fuel s = (.error e, s') →
        progLoop (fuel + 1) s = (.error e, s')) := by
  constructor
  · intro fuel fname s s2 s5 func args e hpre hexpr
    have hp := callPre_tabs hpre
    have he := expr_tabs hexpr
    simp only [tabs, bodyState, Prod.mk.injEq] at hp he
    obtain ⟨hv2, ha2, hf2, hi2⟩ := hp
    obtain ⟨hv5, ha5, hf5, hi5⟩ := he
    refine ⟨?_, ?_, ?_, ?_, ?_, ?_⟩
    · simp only [call_function, hpre, hexpr]
    · simp [restoreFrom, hv2]
    · simp [restoreFrom, hi2]
    · simp [restoreFrom]
    · simp [restoreFrom, ha5, ha2]
    · simp [restoreFrom, hf5, hf2]
  · intro fuel s s' e hne hst
    simp [progLoop, hne, hst]

/-- Witness for `c5_amended` (first part): the failing call `f(2)` with
body `zz`, applied at its concrete pre/post states. -/
theorem c5_amended_witness :
    call_function 31 "f" ⟨"(2)".toList, 0, [("y", 1)], [], [("f", ⟨["x"], "zz".toList⟩)]⟩
      = (.error (.raised "Error: Undefined variable or function: zz"),
         restoreFrom ⟨"(2)".toList, 3, [("y", 1)], [], [("f", ⟨["x"], "zz".toList⟩)]⟩
           ⟨"zz".toList, 2, [("y", 1), ("x", 2)], [], [("f", ⟨["x"], "zz".toList⟩)]⟩) :=
  (c5_amended.1 30 "f" ⟨"(2)".toList, 0, [("y", 1)], [], [("f", ⟨["x"], "zz".toList⟩)]⟩
    ⟨"(2)".toList, 3, [("y", 1)], [], [("f", ⟨["x"], "zz".toList⟩)]⟩
    ⟨"zz".toList, 2, [("y", 1), ("x", 2)], [], [("f", ⟨["x"], "zz".toList⟩)]⟩
    ⟨["x"], "zz".toList⟩ [2] (.raised "Error: Undefined variable or function: zz")
    (by decide) (by decide)).1

/-- Claim C6.  A normally completing call: after `callPre` collects the
arguments (one per parameter), the body is evaluated as a single `expr` on
a state where every parameter is bound to its argument (shadowing caller
variables of the same name, which are untouched for all other names); on
completion the cursor position and buffer are restored, the variable table
equals its pre-call snapshot (the caller's table), and the call returns the
body's value. -/
theorem c6_thm :
    ∀ (fuel : Nat) (fname : String) (s s2 s5 : ISt) (func : Func)
      (args : List Int) (v : Int),
      callPre fuel fname s = (.ok (func, args), s2) →
      expr fuel (bodyState func args s2) = (.ok v, s5) →
      call_function (fuel + 1) fname s = (.ok v, restoreFrom s2 s5) ∧
      (restoreFrom s2 s5).vars = s.vars ∧
      (restoreFrom s2 s5).input = s.input ∧
      (restoreFrom s2 s5).pos = s2.pos ∧
      args.length = func.params.length ∧
      (∀ nm, nm ∉ func.params →
        lookupA (bodyState func args s2).vars nm = lookupA s.vars nm) ∧
      (func.params.Nodup → ∀ i, i < func.params.length →
        lookupA (bodyState func args s2).vars (func.params.getD i "")
          = some (args.getD i 0)) := by
  intro fuel fname s s2 s5 func args v hpre hexpr
  have hp := callPre_tabs hpre
  simp only [tabs, Prod.mk.injEq] at hp
  obtain ⟨hv2, ha2, hf2, hi2⟩ := hp
  have hlen := (callPre_ok_facts fuel fname s s2 func args hpre).2
  refine ⟨?_, ?_, ?_, ?_, hlen, ?_, ?_⟩
  · simp only [call_function, hpre, hexpr]
  · simp [restoreFrom, hv2]
  · simp [restoreFrom, hi2]
  · simp [restoreFrom]
  · intro nm hnm
    simp only [bodyState]
    rw [lookupA_bindParams_notMem func.params args s2.vars nm hnm, hv2]
  · intro hnd i hi
    simp only [bodyState]
    exact lookupA_bindParams_get func.params args s2.vars i hi hlen hnd

/-- Witness for `c6_thm`: `f(5)` with `f(x){x*x}` returns 25, the
parameter `x` = 5 shadows the caller's `x` = 3 during the body, and the
caller's table (with `x` = 3) is restored afterwards. -/
theorem c6_witness :
    call_function 31 "f"
        ⟨"(5)".toList, 0, [("y", 1), ("x", 3)], [], [("f", ⟨["x"], "x*x".toList⟩)]⟩
      = (.ok 25,
         restoreFrom
           ⟨"(5)".toList, 3, [("y", 1), ("x", 3)], [], [("f", ⟨["x"], "x*x".toList⟩)]⟩
           ⟨"x*x".toList, 3, [("y", 1), ("x", 5)], [], [("f", ⟨["x"], "x*x".toList⟩)]⟩) :=
  (c6_thm 30 "f"
    ⟨"(5)".toList, 0, [("y", 1), ("x", 3)], [], [("f", ⟨["x"], "x*x".toList⟩)]⟩
    ⟨"(5)".toList, 3, [("y", 1), ("x", 3)], [], [("f", ⟨["x"], "x*x".toList⟩)]⟩
    ⟨"x*x".toList, 3, [("y", 1), ("x", 5)], [], [("f", ⟨["x"], "x*x".toList⟩)]⟩
    ⟨["x"], "x*x".toList⟩ [5] 25 (by decide) (by decide)).1

/-- How `factor` evaluates an array access `name[index]`: the identifier is
scanned, the index expression is evaluated, `']'` is consumed, and the
declared array is read under the `[0, len)` bounds check (out of bounds →
the `Array index out of bounds` error). -/
theorem factor_array_read (fuel : Nat) (s : ISt) (c : Char) (cs rest : List Char)
    (idx : Int) (s2 : ISt) (arr : List Int)
    (hdrop : s.input.drop s.pos = (c :: cs) ++ '[' :: rest)
    (halpha : isAlphaC c = true)
    (hcs : ∀ x ∈ cs, isIdentC x = true ∧ x ≠ '\x00')
    (hexpr : expr fuel { s with pos := s.pos + (c :: cs).length + 1 } = (.ok idx, s2))
    (hbr : cur s2 = ']')
    (hlook : lookupA s.arrays (String.mk (c :: cs)) = some arr) :
    factor (fuel + 1) s =
      if idx < 0 ∨ (arr.length : Int) ≤ idx then
        (.error (.raised "Error: Array index out of bounds"), advance s2)
      else (.ok (arr.getD idx.toNat 0), advance s2) := by
  have hcur : cur s = c := by
    rw [cur_eq_headD, hdrop]
    simp
  obtain ⟨hsp, hdg, hnn, hid⟩ := alpha_facts halpha
  have hskip : skipWs s = s := skipWs_eq_self (hcur ▸ hsp)
  have hname : ∀ x ∈ (c :: cs), isIdentC x = true ∧ x ≠ '\x00' := by
    intro x hx
    rcases List.mem_cons.mp hx with hx | hx
    · subst hx
      exact ⟨hid, hnn⟩
    · exact hcs x hx
  have hident : identAux s = (c :: cs, { s with pos := s.pos + (c :: cs).length }) :=
    identAux_scan (c :: cs) s ('[' :: rest) hdrop hname
      (by simp only [List.headD_cons]; decide)
  have hdrop1 : s.input.drop (s.pos + (c :: cs).length) = '[' :: rest := by
    rw [← List.drop_drop, hdrop]
    exact List.drop_left _ _
  have hcur1 : cur { s with pos := s.pos + (c :: cs).length } = '[' := by
    rw [cur_eq_headD]
    show (s.input.drop (s.pos + (c :: cs).length)).headD _ = _
    rw [hdrop1]
    rfl
  have harr2 : s2.arrays = s.arrays := by
    have hh := expr_tabs hexpr
    simp only [tabs, Prod.mk.injEq] at hh
    exact hh.2.1
  simp only [factor, hskip, hcur, hdg, halpha, identifier, hident, hcur1, if_pos,
    if_true, if_false, Bool.false_eq_true, advance]
  rw [hexpr]
  simp [hbr, harr2, hlook]

/-- How `factor` handles an identifier that is not followed by `[` and is
neither a known variable nor a known function: the
`Undefined variable or function` error, raised at the position just past
the identifier. -/
theorem factor_undefined_ident (fuel : Nat) (s : ISt) (c : Char) (cs rest : List Char)
    (hdrop : s.input.drop s.pos = (c :: cs) ++ rest)
    (halpha : isAlphaC c = true)
    (hcs : ∀ x ∈ cs, isIdentC x = true ∧ x ≠ '\x00')
    (hrest : isIdentC (rest.headD '\x00') = false)
    (hbr : rest.headD '\x00' ≠ '[')
    (hv : lookupA s.vars (String.mk (c :: cs)) = none)
    (hf : lookupA s.functions (String.mk (c :: cs)) = none) :
    factor (fuel + 1) s =
      (.error (.raised ("Error: Undefined variable or function: " ++ String.mk (c :: cs))),
       { s with pos := s.pos + (c :: cs).length }) := by
  have hcur : cur s = c := by
    rw [cur_eq_headD, hdrop]
    simp
  obtain ⟨hsp, hdg, hnn, hid⟩ := alpha_facts halpha
  have hskip : skipWs s = s := skipWs_eq_self (hcur ▸ hsp)
  have hname : ∀ x ∈ (c :: cs), isIdentC x = true ∧ x ≠ '\x00' := by
    intro x hx
    rcases List.mem_cons.mp hx with hx | hx
    · subst hx
      exact ⟨hid, hnn⟩
    · exact hcs x hx
  have hident : identAux s = (c :: cs, { s with pos := s.pos + (c :: cs).length }) :=
    identAux_scan (c :: cs) s rest hdrop hname hrest
  have hdrop1 : s.input.drop (s.pos + (c :: cs).length) = rest := by
    rw [← List.drop_drop, hdrop]
    exact List.drop_left _ _
  have hcur1 : cur { s with pos := s.pos + (c :: cs).length } = rest.headD '\x00' := by
    rw [cur_eq_headD]
    show (s.input.drop (s.pos + (c :: cs).length)).headD _ = _
    rw [hdrop1]
  simp only [factor, hskip, hcur, hdg, halpha, identifier, hident, hcur1, if_false,
    Bool.false_eq_true, hbr, hv, hf]
  simp [hbr]

/-- Claim C8.  In `factor`, an identifier followed by `[`: when the name
denotes a declared array and the index expression evaluates into
`[0, len)`, the read returns the stored element; an index outside `[0,len)`
fails with the out-of-bounds error; an identifier not followed by `[` that
is neither a declared variable nor a function fails with the
undefined-symbol error.  Concretely, writing `a[2] = 7` into a length-3
array by `statement` and then reading `a[2]` yields 7. -/
theorem c8_thm :
    (∀ (fuel : Nat) (s : ISt) (c : Char) (cs rest : List Char) (idx : Int) (s2 : ISt)
        (arr : List Int),
        s.input.drop s.pos = (c :: cs) ++ '[' :: rest →
        isAlphaC c = true →
        (∀ x ∈ cs, isIdentC x = true ∧ x ≠ '\x00') →
        expr fuel { s with pos := s.pos + (c :: cs).length + 1 } = (.ok idx, s2) →
        cur s2 = ']' →
        lookupA s.arrays (String.mk (c :: cs)) = some arr →
        (¬(idx < 0 ∨ (arr.length : Int) ≤ idx) →
          factor (fuel + 1) s = (.ok (arr.getD idx.toNat 0), advance s2)) ∧
        ((idx < 0 ∨ (arr.length : Int) ≤ idx) →
          factor (fuel + 1) s
            = (.error (.raised "Error: Array index out of bounds"), advance s2))) ∧
    (∀ (fuel : Nat) (s : ISt) (c : Char) (cs rest : List Char),
        s.input.drop s.pos = (c :: cs) ++ rest →
        isAlphaC c = true →
        (∀ x ∈ cs, isIdentC x = true ∧ x ≠ '\x00') →
        isIdentC (rest.headD '\x00') = false →
        rest.headD '\x00' ≠ '[' →
        lookupA s.vars (String.mk (c :: cs)) = none →
        lookupA s.functions (String.mk (c :: cs)) = none →
        factor (fuel + 1) s
          = (.error (.raised ("Error: Undefined variable or function: "
                ++ String.mk (c :: cs))),
             { s with pos := s.pos + (c :: cs).length })) ∧
    ((statement 50 ⟨"a[2]=7".toList, 0, [], [("a", [0, 0, 0])], []⟩).1 = .ok () ∧
      (statement 50 ⟨"a[2]=7".toList, 0, [], [("a", [0, 0, 0])], []⟩).2.arrays
        = [("a", [0, 0, 7])] ∧
      (factor 50 ⟨"a[2]".toList, 0, [], [("a", [0, 0, 7])], []⟩).1 = .ok 7) := by
  refine ⟨?_, ?_, ?_, ?_, ?_⟩
  · intro fuel s c cs rest idx s2 arr hdrop halpha hcs hexpr hbr hlook
    have hh := factor_array_read fuel s c cs rest idx s2 arr hdrop halpha hcs hexpr hbr hlook
    constructor
    · intro hin
      rw [hh, if_neg hin]
    · intro hout
      rw [hh, if_pos hout]
  · exact factor_undefined_ident
  · decide
  · decide
  · decide

/-- Witness for `c8_thm`: array `ab = [4,5,6]`; reading `ab[1]` yields 5,
reading `ab[9]` is out of bounds, and the unknown identifier `zz` fails. -/
theorem c8_witness :
    factor 21 ⟨"ab[1]".toList, 0, [], [("ab", [4, 5, 6])], []⟩
      = (.ok 5, ⟨"ab[1]".toList, 5, [], [("ab", [4, 5, 6])], []⟩) ∧
    factor 21 ⟨"ab[9]".toList, 0, [], [("ab", [4, 5, 6])], []⟩
      = (.error (.raised "Error: Array index out of bounds"),
         ⟨"ab[9]".toList, 5, [], [("ab", [4, 5, 6])], []⟩) ∧
    factor 21 ⟨"zz".toList, 0, [], [], []⟩
      = (.error (.raised "Error: Undefined variable or function: zz"),
         ⟨"zz".toList, 2, [], [], []⟩) := by
  refine ⟨?_, ?_, ?_⟩
  · have hh := (c8_thm.1 20 ⟨"ab[1]".toList, 0, [], [("ab", [4, 5, 6])], []⟩
      'a' ['b'] ['1', ']'] 1 ⟨"ab[1]".toList, 4, [], [("ab", [4, 5, 6])], []⟩ [4, 5, 6]
      (by decide) (by decide) (by decide) (by decide) (by decide) (by decide)).1
      (by decide)
    rw [hh]
    decide
  · have hh := (c8_thm.1 20 ⟨"ab[9]".toList, 0, [], [("ab", [4, 5, 6])], []⟩
      'a' ['b'] ['9', ']'] 9 ⟨"ab[9]".toList, 4, [], [("ab", [4, 5, 6])], []⟩ [4, 5, 6]
      (by decide) (by decide) (by decide) (by decide) (by decide) (by decide)).2
      (by decide)
    rw [hh]
    decide
  · have hh := c8_thm.2.1 20 ⟨"zz".toList, 0, [], [], []⟩ 'z' ['z'] []
      (by decide) (by decide) (by decide) (by decide) (by decide) (by decide) (by decide)
    rw [hh]
    decide

/-- Claim C2.  `STORE`/`LOAD` instruction strings are *not* recognized:
`execute` compares `op = instruction.substr(0, 3)` — i.e. `"STO"`/`"LOA"` —
against the longer names `"STORE"` and `"LOAD"`, which can never
match, so both instructions are rejected as unknown and a run halts at the
first of them (here the subsequent `LOAD` never executes and R1 stays 0).
The handlers `store`/`loadFromHeap` themselves, called directly, do
implement the specified memory semantics, including the OutOfRange failure
for address 150 — they are simply unreachable from the dispatcher. -/
theorem c2_thm :
    (execute "STORE R0 0".toList initVM).1
        = .error (.raised "Unknown instruction: STORE R0 0") ∧
    (execute "LOAD R1 0".toList initVM).1
        = .error (.raised "Unknown instruction: LOAD R1 0") ∧
    (runVM 10 (loadVM initVM
        ["MOV 0 7".toList, "STORE R0 0".toList, "LOAD R1 0".toList])).2.errLog
        = ["Unknown instruction: STORE R0 0"] ∧
    (runVM 10 (loadVM initVM
        ["MOV 0 7".toList, "STORE R0 0".toList, "LOAD R1 0".toList])).2.registers
        = [7, 0, 0, 0, 0, 0] ∧
    (store "STORE 0 5".toList { initVM with registers := [7, 0, 0, 0, 0, 0] }).1
        = .ok () ∧
    (loadFromHeap "LOAD R1 5".toList
        (store "STORE 0 5".toList { initVM with registers := [7, 0, 0, 0, 0, 0] }).2).2.registers
        = [7, 7, 0, 0, 0, 0] ∧
    (loadFromHeap "LOAD R0 150".toList initVM).1
        = .error (.raised "Error: Invalid memory address!") := by
  refine ⟨?_, ?_, ?_, ?_, ?_, ?_, ?_⟩ <;> decide

/-- Claim C3.  `CALL label` is *not* recognized by the dispatcher (its
3-character prefix `"CAL"` never equals `"CALL"`), so a program containing
`CALL end` — label registered — halts with `Unknown instruction` and
control never transfers; `RET` *is* recognized, and with no pending call
frame it fails with the empty-call-stack error.  The `call`/`ret` handlers
in isolation do implement the claimed control flow: from pc = 1 (just past
a `CALL` fetched at slot 0), `call` jumps to the label (slot 3) pushing the
return address 1, and `ret` returns there, i.e. to the instruction
immediately after the `CALL`. -/
theorem c3_thm :
    (execute "CALL end".toList
        (defineLabel (loadVM initVM ["CALL end".toList]) "end".toList)).1
        = .error (.raised "Unknown instruction: CALL end") ∧
    (runVM 10 (defineLabel (loadVM initVM ["CALL end".toList]) "end".toList)).2.errLog
        = ["Unknown instruction: CALL end"] ∧
    (execute "RET".toList initVM).1
        = .error (.raised "Error: Return from empty call stack!") ∧
    (call "CALL end".toList
        { defineLabel (loadVM initVM ["MOV 0 1".toList, "MOV 0 2".toList, "MOV 0 3".toList])
            "end".toList with pc := 1, running := true }).2.pc = 3 ∧
    (call "CALL end".toList
        { defineLabel (loadVM initVM ["MOV 0 1".toList, "MOV 0 2".toList, "MOV 0 3".toList])
            "end".toList with pc := 1, running := true }).2.callStack = [1] ∧
    (ret (call "CALL end".toList
        { defineLabel (loadVM initVM ["MOV 0 1".toList, "MOV 0 2".toList, "MOV 0 3".toList])
            "end".toList with pc := 1, running := true }).2).2.pc = 1 ∧
    (ret (call "CALL end".toList
        { defineLabel (loadVM initVM ["MOV 0 1".toList, "MOV 0 2".toList, "MOV 0 3".toList])
            "end".toList with pc := 1, running := true }).2).2.callStack = [] := by
  refine ⟨?_, ?_, ?_, ?_, ?_, ?_, ?_⟩ <;> decide

/-- Claim C7.  With the documented `MOV R0 10` format the register operand
is decoded as `instruction[4] - '0'` = `'R' - '0'` = 34, an out-of-bounds
index into the six-slot register file — undefined behaviour, so the claimed
run never reaches R0 = 50.  With the operand format the decoder actually
implements (`MOV 0 10`, no `R`), the machinery behaves as the claim
describes: `MOV 0 10; MOV 1 5; MUL 0 1` leaves R0 = 50, and `MOV 1 0;
DIV 0 1; MOV 2 9` halts at the division by zero with the ArithmeticError
logged, leaving `MOV 2 9` unexecuted (R2 = 0) and the machine stopped. -/
theorem c7_thm :
    (runVM 10 (loadVM initVM
        ["MOV R0 10".toList, "MOV R1 5".toList, "MUL R0 R1".toList])).1
        = .error (.ub "register index out of bounds") ∧
    (runVM 10 (loadVM initVM
        ["MOV 0 10".toList, "MOV 1 5".toList, "MUL 0 1".toList])).1 = .ok () ∧
    (runVM 10 (loadVM initVM
        ["MOV 0 10".toList, "MOV 1 5".toList, "MUL 0 1".toList])).2.registers
        = [50, 5, 0, 0, 0, 0] ∧
    (runVM 10 (loadVM initVM
        ["MOV 1 0".toList, "DIV 0 1".toList, "MOV 2 9".toList])).2.errLog
        = ["Error: Division by zero!"] ∧
    (runVM 10 (loadVM initVM
        ["MOV 1 0".toList, "DIV 0 1".toList, "MOV 2 9".toList])).2.registers
        = [0, 0, 0, 0, 0, 0] ∧
    (runVM 10 (loadVM initVM
        ["MOV 1 0".toList, "DIV 0 1".toList, "MOV 2 9".toList])).2.running = false := by
  refine ⟨?_, ?_, ?_, ?_, ?_, ?_⟩ <;> decide

/-- The only failure `charAt` can produce is the string-index
undefined-behaviour marker. -/
theorem charAt_error {l : List Char} {i : Nat} {e : Err}
    (h : charAt l i = .error e) : e = .ub "string index out of bounds" := by
  unfold charAt at h
  split at h
  · exact absurd h (by simp)
  · split at h
    · exact absurd h (by simp)
    · injection h with h1
      exact h1.symm

/-- The only failure `getReg` can produce is the register-index
undefined-behaviour marker. -/
theorem getReg_error {st : VMSt} {i : Int} {e : Err}
    (h : getReg st i = .error e) : e = .ub "register index out of bounds" := by
  unfold getReg at h
  split at h
  · exact absurd h (by simp)
  · injection h with h1
    exact h1.symm

/-- A register-position character outside `'0'..'5'` denotes an index
outside the register file. -/
theorem regOfChar_oob {c : Char} (hbad : ¬(48 ≤ c.toNat ∧ c.toNat ≤ 53)) :
    ¬(0 ≤ regOfChar c ∧ regOfChar c < 6) := by
  simp only [regOfChar]
  omega

/-- `mov` with a register character outside `'0'..'5'` (and a parsable
immediate, so that `stoi` does not throw first) is an out-of-bounds
register write. -/
theorem mov_reg_oob (st : VMSt) (instr : List Char) (c : Char) (v : Int)
    (hca : charAt instr 4 = .ok c) (hbad : ¬(48 ≤ c.toNat ∧ c.toNat ≤ 53))
    (hstoi : stoiList (instr.drop 6) = .ok v) :
    isUB (mov instr st).1 = true := by
  have h6 : 6 ≤ instr.length := by
    by_contra h6
    rw [List.drop_eq_nil_of_le (by omega)] at hstoi
    simp [stoiList] at hstoi
  have hsub : substrFrom instr 6 = .ok (instr.drop 6) := by
    simp [substrFrom, h6]
  simp only [mov, hca, hsub, hstoi]
  simp [setReg, regOfChar_oob hbad, isUB]

/-- `arithmetic` with a second-register character outside `'0'..'5'`
(offset 6) reads out of the register file before anything else — for every
opcode, including the `DIV`/`MOD` zero test, which is itself an access to
`registers[reg2]`. -/
theorem arithmetic_reg2_oob (st : VMSt) (instr : List Char) (c2 : Char) (op : String)
    (hca : charAt instr 6 = .ok c2) (hbad : ¬(48 ≤ c2.toNat ∧ c2.toNat ≤ 53)) :
    isUB (arithmetic instr op st).1 = true := by
  simp only [arithmetic]
  match h4 : charAt instr 4 with
  | .error e => simp [h4, isUB, charAt_error h4]
  | .ok c1 =>
    simp only [h4, hca]
    simp [getReg, regOfChar_oob hbad, isUB]

/-- `arithmetic` on `ADD`/`SUB`/`MUL` with a first-register character
outside `'0'..'5'` (offset 4) is an out-of-bounds register access whatever
the second operand decodes to. -/
theorem arithmetic_reg1_oob (st : VMSt) (instr : List Char) (c : Char) (op : String)
    (hop : op = "ADD" ∨ op = "SUB" ∨ op = "MUL")
    (hca : charAt instr 4 = .ok c) (hbad : ¬(48 ≤ c.toNat ∧ c.toNat ≤ 53)) :
    isUB (arithmetic instr op st).1 = true := by
  simp only [arithmetic, hca]
  match h6 : charAt instr 6 with
  | .error e => simp [h6, isUB, charAt_error h6]
  | .ok c2 =>
    simp only [h6]
    match hr2 : getReg st (regOfChar c2) with
    | .error e2 => simp [hr2, isUB, getReg_error hr2]
    | .ok v2 =>
      have hz : ¬((op = "DIV" ∨ op = "MOD") ∧ v2 = 0) := by
        rcases hop with h | h | h <;> subst h <;> simp
      have hexp : op ≠ "EXP" := by
        rcases hop with h | h | h <;> subst h <;> simp
      simp [hr2, hz, hexp, getReg, regOfChar_oob hbad, isUB]

/-- `comparison` with a second-register character outside `'0'..'5'` is an
out-of-bounds register access (immediately if the first register is also
bad, otherwise at the second read). -/
theorem comparison_reg2_oob (st : VMSt) (instr : List Char) (c2 : Char) (op : String)
    (hca : charAt instr 6 = .ok c2) (hbad : ¬(48 ≤ c2.toNat ∧ c2.toNat ≤ 53)) :
    isUB (comparison instr op st).1 = true := by
  simp only [comparison]
  match h4 : charAt instr 4 with
  | .error e => simp [h4, isUB, charAt_error h4]
  | .ok c1 =>
    simp only [h4, hca]
    match hr1 : getReg st (regOfChar c1) with
    | .error e1 => simp [hr1, isUB, getReg_error hr1]
    | .ok v1 => simp [hr1, getReg, regOfChar_oob hbad, isUB]

/-- Claim C10.  Operand decode never validates register indices: every
register operand is `instruction[k] - '0'` for a fixed offset `k` (4 or 6)
and is used to index the 6-slot register file directly.  Whenever the
register-position character is not one of `'0'..'5'` (codes 48–53) — as
with every `R`-prefixed operand of the documented format, where the
character at offset 4 is `'R'` — the resulting access is out of the
register file's bounds: the outcome is undefined behaviour, not any raised
error of the spec's taxonomy.  Stated for `mov` (given the immediate parses,
since `stoi` runs before the write), for `arithmetic` on both operand
positions, for `comparison`, and for a dispatched `MOV` through
`execute`. -/
theorem c10_thm :
    (∀ (st : VMSt) (instr : List Char) (c : Char) (v : Int),
        charAt instr 4 = .ok c → ¬(48 ≤ c.toNat ∧ c.toNat ≤ 53) →
        stoiList (instr.drop 6) = .ok v →
        isUB (mov instr st).1 = true) ∧
    (∀ (st : VMSt) (instr : List Char) (c : Char) (op : String),
        op = "ADD" ∨ op = "SUB" ∨ op = "MUL" →
        charAt instr 4 = .ok c → ¬(48 ≤ c.toNat ∧ c.toNat ≤ 53) →
        isUB (arithmetic instr op st).1 = true) ∧
    (∀ (st : VMSt) (instr : List Char) (c2 : Char) (op : String),
        charAt instr 6 = .ok c2 → ¬(48 ≤ c2.toNat ∧ c2.toNat ≤ 53) →
        isUB (arithmetic instr op st).1 = true) ∧
    (∀ (st : VMSt) (instr : List Char) (c2 : Char) (op : String),
        charAt instr 6 = .ok c2 → ¬(48 ≤ c2.toNat ∧ c2.toNat ≤ 53) →
        isUB (comparison instr op st).1 = true) ∧
    (∀ (st : VMSt) (c : Char) (rest : List Char) (v : Int),
        ¬(48 ≤ c.toNat ∧ c.toNat ≤ 53) →
        stoiList (('M' :: 'O' :: 'V' :: ' ' :: c :: rest).drop 6) = .ok v →
        isUB (execute ('M' :: 'O' :: 'V' :: ' ' :: c :: rest) st).1 = true) := by
  refine ⟨mov_reg_oob, arithmetic_reg1_oob, arithmetic_reg2_oob, comparison_reg2_oob, ?_⟩
  intro st c rest v hbad hstoi
  have htake : ('M' :: 'O' :: 'V' :: ' ' :: c :: rest).take 3 = ['M', 'O', 'V'] := rfl
  have hmov : ("MOV".toList : List Char) = ['M', 'O', 'V'] := rfl
  have hca : charAt ('M' :: 'O' :: 'V' :: ' ' :: c :: rest) 4 = .ok c := by
    simp [charAt]
  simp only [execute, htake, hmov, if_pos]
  exact mov_reg_oob st _ c v hca hbad hstoi

/-- Witness for `c10_thm`, at the documented instruction formats:
`MOV R0 10` (`'R'` at offset 4), `ADD R0 R1` (`'R'` at offset 4),
`DIV R0 R1` (`' '` at offset 6), `GT R0 R1` (`'R'` at offset 6), and the
dispatched `MOV R0 10`. -/
theorem c10_witness :
    isUB (mov "MOV R0 10".toList initVM).1 = true ∧
    isUB (arithmetic "ADD R0 R1".toList "ADD" initVM).1 = true ∧
    isUB (arithmetic "DIV R0 R1".toList "DIV" initVM).1 = true ∧
    isUB (comparison "GT R0 R1".toList "GT" initVM).1 = true ∧
    isUB (execute "MOV R0 10".toList initVM).1 = true :=
  ⟨c10_thm.1 initVM _ 'R' 10 (by decide) (by decide) (by decide),
   c10_thm.2.1 initVM _ 'R' "ADD" (Or.inl rfl) (by decide) (by decide),
   c10_thm.2.2.1 initVM _ ' ' "DIV" (by decide) (by decide),
   c10_thm.2.2.2.1 initVM _ 'R' "GT" (by decide) (by decide),
   c10_thm.2.2.2.2 initVM 'R' " 10".toList 10 (by decide) (by decide)⟩
